import Mathlib

/-!
Verification of the natural-language specification of the Angular
compatibility checker (`src/check-compat.ts`) against a shallow embedding
of its compatibility-resolution engine.

The embedding models, faithfully to the TypeScript source:
  * the version-history scanner of `processPackage` (fast limit, early
    exit, extension past the fast limit),
  * the formal compatibility classifier (`satisfiesAngular` applied to a
    declared peer range),
  * the heuristic classifier `checkAngularCompatibility`,
  * the recommendation and note computation,
  * the per-package failure boundary and the result aggregation / final
    sort of `run`.

External collaborators (the npm registry and the `semver` library) are
modelled as explicit parameters: a registry environment supplies package
metadata and per-version peer-dependency answers, and a `SemverLib`
record supplies the semver operations the source calls
(`semver.valid`, `semver.prerelease`, `semver.rcompare` sorting,
`semver.satisfies`, `semver.parse`).  Concrete test instances instantiate
them with computable stand-ins for plain `x.y.z` versions.
-/

/-- One manifest dependency entry (source: `type DepEntry`, line 60). -/
structure DepEntry where
  name : String
  current : String
  isDev : Bool
  deriving DecidableEq

/-- Outcome of the per-version peer-dependency registry probe
(`npm view name@v peerDependencies`): the query can fail, succeed with no
Angular peer entry, or succeed with a declared range for
`@angular/core` (or `angular`). -/
inductive PeerResult where
  | failed : PeerResult
  | noPeer : PeerResult
  | peer : String → PeerResult
  deriving DecidableEq

/-- How the source collapses a probe outcome: a failed query is swallowed
by the `catch` (line 360) leaving `peerDeps = {}`, so both failure and a
missing entry yield no peer range. -/
def peerOf : PeerResult → Option String
  | PeerResult.failed => none
  | PeerResult.noPeer => none
  | PeerResult.peer r => some r

/-- The classification-relevant engine configuration: the CLI-derived
globals of the source that feed the scan, classification and
recommendation (lines 19-52). -/
structure ScanConfig where
  angularMajor : Nat
  includePrerelease : Bool
  exhaustive : Bool
  fastLimit : Nat

/-- The full run configuration: the classification configuration plus
the two presentation-only display toggles (`--no-progress`, `--verbose`,
lines 20 and 22). -/
structure RunConfig where
  angularMajor : Nat
  includePrerelease : Bool
  exhaustive : Bool
  fastLimit : Nat
  showProgress : Bool
  verbose : Bool

/-- The classification part of a full configuration. -/
def RunConfig.scanConfig (c : RunConfig) : ScanConfig :=
  { angularMajor := c.angularMajor
    includePrerelease := c.includePrerelease
    exhaustive := c.exhaustive
    fastLimit := c.fastLimit }

/-- A parsed plain semantic version `major.minor.patch`. -/
abbrev SemTriple := Nat × Nat × Nat

/-- Character-list prefix test (executable model of JavaScript
`String.startsWith`). -/
def listPrefixOf : List Char → List Char → Bool
  | [], _ => true
  | _ :: _, [] => false
  | a :: as, b :: bs => a == b && listPrefixOf as bs

/-- JavaScript `s.startsWith(p)`. -/
def strStartsWith (s p : String) : Bool := listPrefixOf p.data s.data

/-- ASCII lower-casing of one character. -/
def lowerChar (c : Char) : Char :=
  if 64 < c.toNat && c.toNat < 91 then Char.ofNat (c.toNat + 32) else c

/-- JavaScript `s.toLowerCase()` (ASCII). -/
def strToLower (s : String) : String := String.mk (s.data.map lowerChar)

/-- Split a character list on a separator character. -/
def splitOnCharAux (sep : Char) : List Char → List (List Char)
  | [] => [[]]
  | c :: rest =>
    let r := splitOnCharAux sep rest
    if c == sep then [] :: r
    else
      match r with
      | h :: t => (c :: h) :: t
      | [] => [[c]]

/-- Parse a digit string into a number, accumulator form. -/
def charsToNatAux : List Char → Nat → Option Nat
  | [], acc => some acc
  | c :: cs, acc =>
    if c.isDigit then charsToNatAux cs (acc * 10 + (c.toNat - 48)) else none

/-- Parse a nonempty digit string into a number. -/
def charsToNat : List Char → Option Nat
  | [] => none
  | cs => charsToNatAux cs 0

/-- Substring containment on character lists (JavaScript `includes`). -/
def listContainsSub (tok : List Char) : List Char → Bool
  | [] => tok.isEmpty
  | c :: rest => listPrefixOf tok (c :: rest) || listContainsSub tok rest

/-- Code-point lexicographic ordering on character lists: the executable
stand-in for the locale name ordering of the final sort. -/
def charListLE : List Char → List Char → Bool
  | [], _ => true
  | _ :: _, [] => false
  | a :: as, b :: bs =>
    if a == b then charListLE as bs else decide (a.toNat < b.toNat)

/-- The operations the source calls on the external `semver` library. -/
structure SemverLib where
  valid : String → Bool
  hasPre : String → Bool
  sortDesc : List String → List String
  satisfies : String → String → Bool → Bool
  parse : String → Option SemTriple

/-- Source `satisfiesAngular` (lines 158-160):
`semver.satisfies(major.0.0, range, { includePrerelease })`. -/
def satisfiesAngular (cfg : ScanConfig) (lib : SemverLib) (range : String) : Bool :=
  lib.satisfies (toString cfg.angularMajor ++ ".0.0") range cfg.includePrerelease

/-- The per-version compatibility decision of the scan loops
(lines 368 and 406): a version is pushed onto `compatVersions` when it
declares no Angular peer range, or its declared range is satisfied. -/
def classifyCompatible (cfg : ScanConfig) (lib : SemverLib) : Option String → Bool
  | none => true
  | some r => satisfiesAngular cfg lib r

/-- Source `if (!peerAngular) peerAngular = peer` (lines 365, 403). -/
def keepFirst : Option String → String → Option String
  | none, p => some p
  | some q, _ => some q

/-- The scanner state accumulated by `processPackage` while probing the
version history (lines 345-350), plus the instrumentation field `probed`
recording every version for which a peer-dependency registry query was
issued (each loop iteration increments `versionQueries` in the source). -/
structure ScanState where
  peerAngular : Option String
  compatVersions : List String
  hasAngularPeerDep : Bool
  currentVersionFound : Bool
  probed : List String
  deriving DecidableEq

/-- One iteration of the fast-window scan loop (lines 353-377): probe the
version, record a formal peer range if present, classify, and note when
the current version was probed. -/
def scanStep (cfg : ScanConfig) (lib : SemverLib) (current : String)
    (peers : String → PeerResult) (st : ScanState) (v : String) : ScanState :=
  let pr := peerOf (peers v)
  let st1 := { st with probed := st.probed ++ [v] }
  let st2 :=
    match pr with
    | some p => { st1 with hasAngularPeerDep := true,
                           peerAngular := keepFirst st1.peerAngular p }
    | none => st1
  let st3 :=
    if classifyCompatible cfg lib pr then
      { st2 with compatVersions := st2.compatVersions ++ [v] }
    else st2
  if v == current then { st3 with currentVersionFound := true } else st3

/-- The fast-window scan loop (lines 353-383) with its early exit: in
non-exhaustive mode, stop as soon as no formal peer requirement has been
observed and at least one compatible version exists (lines 379-382). -/
def scanLoop1 (cfg : ScanConfig) (lib : SemverLib) (current : String)
    (peers : String → PeerResult) (st : ScanState) : List String → ScanState
  | [] => st
  | v :: rest =>
    let st1 := scanStep cfg lib current peers st v
    if !cfg.exhaustive && !st1.hasAngularPeerDep
        && decide (0 < st1.compatVersions.length) then st1
    else scanLoop1 cfg lib current peers st1 rest

/-- One iteration of the extension loop (lines 392-409): like `scanStep`
but it does not update `hasAngularPeerDep` (the source only refreshes
`peerAngular` there, lines 401-404). -/
def scanStep2 (cfg : ScanConfig) (lib : SemverLib)
    (peers : String → PeerResult) (st : ScanState) (v : String) : ScanState :=
  let pr := peerOf (peers v)
  let st1 := { st with probed := st.probed ++ [v] }
  let st2 :=
    match pr with
    | some p => { st1 with peerAngular := keepFirst st1.peerAngular p }
    | none => st1
  if classifyCompatible cfg lib pr then
    { st2 with compatVersions := st2.compatVersions ++ [v] }
  else st2

/-- The extension loop beyond the fast limit (lines 392-415): probe the
remaining versions and stop once the current version is found. -/
def scanLoop2 (cfg : ScanConfig) (lib : SemverLib) (current : String)
    (peers : String → PeerResult) (st : ScanState) : List String → ScanState
  | [] => st
  | v :: rest =>
    let st1 := scanStep2 cfg lib peers st v
    if v == current then { st1 with currentVersionFound := true }
    else scanLoop2 cfg lib current peers st1 rest

/-- The candidate set of the scan (lines 337-343): the first `fastLimit`
versions when the fast limit is positive, else the whole list. -/
def versionsToCheck (cfg : ScanConfig) (versions : List String) : List String :=
  if 0 < cfg.fastLimit then versions.take cfg.fastLimit else versions

/-- The scanner's initial state: `currentVersionFound` is pre-set to
membership of the current version in the fast window (line 342), and is
`false` otherwise (line 335). -/
def initState (cfg : ScanConfig) (versions : List String) (current : String) : ScanState :=
  { peerAngular := none
    compatVersions := []
    hasAngularPeerDep := false
    currentVersionFound := decide (0 < cfg.fastLimit)
      && (versionsToCheck cfg versions).contains current
    probed := [] }

/-- The state after the fast-window loop of `processPackage`. -/
def scanPhase1 (cfg : ScanConfig) (lib : SemverLib) (versions : List String)
    (current : String) (peers : String → PeerResult) : ScanState :=
  scanLoop1 cfg lib current peers (initState cfg versions current)
    (versionsToCheck cfg versions)

/-- The guard of the extension phase (line 386): a formal peer dependency
was seen, the current version was not found, the fast limit is active,
and versions remain beyond the probed window. -/
def extendCond (cfg : ScanConfig) (versions : List String) (st1 : ScanState) : Bool :=
  st1.hasAngularPeerDep && !st1.currentVersionFound
    && decide (0 < cfg.fastLimit) && decide (st1.probed.length < versions.length)

/-- The full version-history scan of `processPackage` (lines 334-416):
the fast-window loop followed, when `extendCond` holds, by the extension
loop over `versions.slice(versionIndex)`. -/
def scan (cfg : ScanConfig) (lib : SemverLib) (versions : List String)
    (current : String) (peers : String → PeerResult) : ScanState :=
  let st1 := scanPhase1 cfg lib versions current peers
  if extendCond cfg versions st1 then
    scanLoop2 cfg lib current peers st1 (versions.drop st1.probed.length)
  else st1

/-- The prefix of a list up to and including the first occurrence of
`current` (the whole list when absent): the versions the extension loop
probes. -/
def probeUntil (current : String) : List String → List String
  | [] => []
  | v :: rest => if v == current then [v] else v :: probeUntil current rest

/-- Latest/earliest compatible bounds (lines 419-425): with a formal peer
dependency the bounds bracket `compatVersions` (first = latest,
last = earliest); without one only `latestCompat` is set, to the first
compatible version found. -/
def compatBounds (st : ScanState) : Option String × Option String :=
  if st.hasAngularPeerDep && decide (0 < st.compatVersions.length) then
    (st.compatVersions.head?, st.compatVersions.getLast?)
  else if decide (0 < st.compatVersions.length) then
    (st.compatVersions.head?, none)
  else (none, none)

/-- Plain `major.minor.patch` parser: the behavior of `semver.parse` on
release versions, used by the concrete test instantiation of the
library parameter. -/
def parseSemver (s : String) : Option SemTriple :=
  match splitOnCharAux '.' s.data with
  | [a, b, c] =>
    match charsToNat a, charsToNat b, charsToNat c with
    | some x, some y, some z => some (x, y, z)
    | _, _, _ => none
  | _ => none

/-- Lexicographic strict order on parsed versions: the behavior of
`semver.gt` on release versions. -/
def triGt (a b : SemTriple) : Bool :=
  decide (b.1 < a.1) || (a.1 == b.1 &&
    (decide (b.2.1 < a.2.1) || (a.2.1 == b.2.1 && decide (b.2.2 < a.2.2))))

/-- Descending comparison on version strings via `parseSemver`, for the
test instantiation of `semver.rcompare` sorting. -/
def svGeB (a b : String) : Bool :=
  match parseSemver a, parseSemver b with
  | some x, some y => triGt x y || x == y
  | _, _ => false

/-- Pluralization used in the distance descriptor: `diff > 1 ? 's' : ''`. -/
def pluralS (n : Int) : String := if 1 < n then "s" else ""

/-- The distance descriptor for a package with a formal Angular peer
dependency, compared against the latest compatible version
(lines 430-467). -/
def versionsBehindFormal (lib : SemverLib) (currentClean : String)
    (latestCompat : Option String) : String :=
  match latestCompat with
  | some lc =>
    if currentClean != "" then
      match lib.parse currentClean, lib.parse lc with
      | some c, some l =>
        if c == l then "Up to date with latest compatible"
        else if triGt c l then "Ahead of latest compatible"
        else
          let majorDiff : Int := (l.1 : Int) - (c.1 : Int)
          let minorDiff : Int := (l.2.1 : Int) - (c.2.1 : Int)
          let patchDiff : Int := (l.2.2 : Int) - (c.2.2 : Int)
          if 0 < majorDiff then
            toString majorDiff ++ " major version" ++ pluralS majorDiff
              ++ " behind latest compatible"
          else if 0 < minorDiff then
            toString minorDiff ++ " minor version" ++ pluralS minorDiff
              ++ " behind latest compatible"
          else if 0 < patchDiff then
            toString patchDiff ++ " patch version" ++ pluralS patchDiff
              ++ " behind latest compatible"
          else "Behind latest compatible (version format difference)"
      | _, _ => "Invalid version format"
    else "Unknown"
  | none => "No compatible version found"

/-- The distance descriptor for a package without a formal Angular peer
dependency, compared against the latest version (lines 469-503). -/
def versionsBehindNoPeer (lib : SemverLib) (currentClean latest : String) : String :=
  if latest != "" && currentClean != "" then
    match lib.parse currentClean, lib.parse latest with
    | some c, some l =>
      if c == l then "Up to date"
      else if triGt c l then "Ahead of latest"
      else
        let majorDiff : Int := (l.1 : Int) - (c.1 : Int)
        let minorDiff : Int := (l.2.1 : Int) - (c.2.1 : Int)
        let patchDiff : Int := (l.2.2 : Int) - (c.2.2 : Int)
        if 0 < majorDiff then
          toString majorDiff ++ " major version" ++ pluralS majorDiff ++ " behind"
        else if 0 < minorDiff then
          toString minorDiff ++ " minor version" ++ pluralS minorDiff ++ " behind"
        else if 0 < patchDiff then
          toString patchDiff ++ " patch version" ++ pluralS patchDiff ++ " behind"
        else "Behind (version format difference)"
    | _, _ => "Invalid version format"
  else "Unknown"

/-- Case-insensitive substring test, as `keyword.toLowerCase().includes(tok)`
in the source.  A string contains a (nonempty) token exactly when
splitting on the token yields more than one piece. -/
def containsToken (s tok : String) : Bool :=
  listContainsSub tok.data (strToLower s).data

/-- The fixed allow-list of the heuristic classifier (lines 255-263). -/
def angularCompatiblePackages : List String :=
  ["rxjs", "zone.js", "tslib", "typescript",
   "lodash", "lodash-es", "moment", "date-fns",
   "jwt-decode", "ua-parser-js", "uuid",
   "@types/node", "@types/jest", "@types/jasmine",
   "jest", "jasmine", "karma", "protractor",
   "eslint", "prettier", "stylelint",
   "webpack", "rollup", "vite"]

/-- Framework-ecosystem tokens of the heuristic (line 276). -/
def angularKeywordList : List String := ["angular", "ng", "ngx"]

/-- Utility-role tokens of the heuristic (line 303). -/
def utilityKeywordList : List String :=
  ["utility", "util", "helper", "tool", "library", "polyfill"]

/-- Package metadata returned by `npm view name --json` (line 324):
latest version, version list, and the fields `resolveMigrationLink`
reads.  Absent homepage/repository URLs are the empty string. -/
structure PkgMeta where
  version : String
  versions : List String
  homepage : String
  repositoryUrl : String
  deriving DecidableEq

/-- The external collaborators of a run: the semver library, the
registry metadata query, the per-version peer-dependency query for each
package, the keywords/description query used by the heuristic
(`none` = query failed), and the static migration-link table. -/
structure RegistryEnv where
  lib : SemverLib
  registry : String → Option PkgMeta
  peers : String → String → PeerResult
  pkgInfo : String → Option (List String × String)
  migrationLinks : String → Option String

/-- Source `checkAngularCompatibility` (lines 252-318): allow-list, then
keywords/description signals, then utility/types signals, then the
default-compatible rule; a failed keywords query fails closed. -/
def checkAngularCompatibility (env : RegistryEnv) (name latest : String)
    (versions : List String) : Bool × String :=
  if angularCompatiblePackages.any (fun p => strStartsWith name p) then
    (true, "Known Angular-compatible package")
  else
    match env.pkgInfo name with
    | none => (false, "Failed to check compatibility")
    | some kd =>
      let hasAngularKeywords :=
        kd.1.any (fun k => angularKeywordList.any (fun ng => containsToken k ng))
      let hasAngularDescription :=
        angularKeywordList.any (fun ng => containsToken kd.2 ng)
      if hasAngularKeywords || hasAngularDescription then
        match env.lib.parse latest with
        | some _ =>
          if decide (0 < (versions.take 5).length) then
            (true, "Angular-related package with recent updates")
          else (false, "Angular-related but may be outdated")
        | none => (false, "Angular-related but may be outdated")
      else
        let hasUtilityKeywords :=
          kd.1.any (fun k => utilityKeywordList.any (fun u => containsToken k u))
        if hasUtilityKeywords || strStartsWith name "@types/" then
          (true, "Framework-agnostic utility package")
        else (true, "No explicit framework dependencies detected")

/-- Source `stripRange` (lines 161-163): drop one leading `~` or `^`. -/
def stripRange (v : String) : String :=
  if strStartsWith v "~" || strStartsWith v "^" then v.drop 1 else v

/-- JavaScript `a || b` on strings: the first operand unless it is empty. -/
def orNonempty (a b : String) : String := if a != "" then a else b

/-- Source `resolveMigrationLink` (lines 164-168).  The concrete
`MIGRATION_LINKS` table is presentation data (out of the spec's scope)
and lives in the environment. -/
def resolveMigrationLink (env : RegistryEnv) (name : String) (meta : PkgMeta) : String :=
  match env.migrationLinks name with
  | some l => l
  | none =>
    if strStartsWith name "@ptp/" then ""
    else orNonempty meta.homepage meta.repositoryUrl

/-- Note and recommendation for a package with a formal Angular peer
dependency (lines 525-552). -/
def formalNoteRec (angularMajor : Nat) (currentClean latest : String)
    (compatVersions : List String) (latestCompat earliestCompat : Option String) :
    String × String :=
  match latestCompat with
  | none =>
    ("No compatible version found for Angular " ++ toString angularMajor, "n/a")
  | some lc =>
    if compatVersions.contains currentClean then
      ("Current version is compatible",
       if currentClean == lc then "#3 Keep current version"
       else "#2 Optionally upgrade to " ++ lc)
    else
      let recommended :=
        match earliestCompat with
        | some ec => "#1 Must upgrade to " ++ ec
        | none => "n/a"
      let note :=
        if lc == currentClean then "Up to date"
        else if lc != latest && latest != "" && latest != lc then
          "Newer latest likely needs different Angular peer or is prerelease"
        else if lc != currentClean then
          "Upgradable within Angular " ++ toString angularMajor
        else ""
      (note, recommended)

/-- Note and recommendation for a package without any formal Angular peer
dependency, from the heuristic verdict (lines 559-575). -/
def heuristicNoteRec (angularMajor : Nat) (currentClean latest : String)
    (heur : Bool × String) : String × String :=
  if heur.1 then
    ("Likely compatible with Angular " ++ toString angularMajor ++ " - " ++ heur.2,
     if currentClean == latest then "#3 Keep current version"
     else "#2 Optionally upgrade to " ++ latest)
  else
    ("May not be compatible with Angular " ++ toString angularMajor ++ " - " ++ heur.2,
     if latest != "" && currentClean != latest then "#1 Must upgrade to " ++ latest
     else "n/a")

/-- The final row for one dependency (source: `interface DepInfo` plus
the `isDev` flag, lines 5-16 and 578-590). -/
structure DepInfo where
  name : String
  current : String
  latest : String
  earliestCompat : String
  latestCompat : String
  peerAngular : String
  versionsBehindLatestCompat : String
  recommendedVersion : String
  note : String
  migrationLink : String
  isDev : Bool
  deriving DecidableEq

/-- Version preprocessing of `processPackage` (lines 326-332): keep valid
versions, drop prereleases unless `includePrerelease`, sort descending. -/
def processedVersions (cfg : ScanConfig) (lib : SemverLib) (meta : PkgMeta) :
    List String :=
  let vs1 := meta.versions.filter lib.valid
  let vs2 := if cfg.includePrerelease then vs1
             else vs1.filter (fun v => !lib.hasPre v)
  lib.sortDesc vs2

/-- The record pushed when the metadata query fails (lines 595-607):
`Unknown` where a value could not be determined, `n/a` where a value is
inapplicable, and a failure note. -/
def failRecord (env : RegistryEnv) (entry : DepEntry) : DepInfo :=
  { name := entry.name
    current := entry.current
    latest := ""
    note := "Failed to fetch metadata"
    migrationLink := (env.migrationLinks entry.name).getD ""
    isDev := entry.isDev
    peerAngular := "Unknown"
    versionsBehindLatestCompat := "Unknown"
    recommendedVersion := "n/a"
    earliestCompat := "n/a"
    latestCompat := "n/a" }

/-- The success path of `processPackage` (lines 324-592): preprocess the
version list, scan it, compute bounds, distance descriptor, heuristic
verdict, displays, and assemble the row. -/
def processMeta (cfg : ScanConfig) (env : RegistryEnv) (entry : DepEntry)
    (meta : PkgMeta) : DepInfo :=
  let latest := meta.version
  let versions := processedVersions cfg env.lib meta
  let currentClean := stripRange entry.current
  let st := scan cfg env.lib versions currentClean (env.peers entry.name)
  let bounds := compatBounds st
  let vbd :=
    if st.hasAngularPeerDep then versionsBehindFormal env.lib currentClean bounds.1
    else versionsBehindNoPeer env.lib currentClean latest
  let heur :=
    if st.hasAngularPeerDep then (true, "")
    else checkAngularCompatibility env entry.name latest versions
  let nr :=
    if st.hasAngularPeerDep then
      formalNoteRec cfg.angularMajor currentClean latest st.compatVersions
        bounds.1 bounds.2
    else heuristicNoteRec cfg.angularMajor currentClean latest heur
  { name := entry.name
    current := entry.current
    latest := latest
    earliestCompat := if st.hasAngularPeerDep then bounds.2.getD "" else "n/a"
    latestCompat := if st.hasAngularPeerDep then bounds.1.getD "" else "n/a"
    peerAngular := if st.hasAngularPeerDep then st.peerAngular.getD ""
                   else "Does not depend on Angular"
    versionsBehindLatestCompat := vbd
    recommendedVersion := nr.2
    note := nr.1
    migrationLink := resolveMigrationLink env entry.name meta
    isDev := entry.isDev }

/-- Source `processPackage` (lines 320-612): the per-package boundary.
Exactly one row is produced, the failure row when the metadata query
fails. -/
def processPackage (cfg : ScanConfig) (env : RegistryEnv) (entry : DepEntry) : DepInfo :=
  match env.registry entry.name with
  | some meta => processMeta cfg env entry meta
  | none => failRecord env entry

/-- The final comparator (lines 663-668): non-dev rows before dev rows,
then by name within each group. -/
def depLE (a b : DepInfo) : Bool :=
  if a.isDev != b.isDev then !a.isDev else charListLE a.name.data b.name.data

/-- The final deterministic re-ordering of `run` (line 663). -/
def sortResults (rs : List DepInfo) : List DepInfo :=
  List.insertionSort (fun a b => depLE a b = true) rs

/-- The whole run over a work list (lines 614-668): one row per entry,
then the final sort.  The worker pool processes entries in an arbitrary
interleaving; a run over any permutation of the manifest entries is a
`runResults` over that permutation. -/
def runResults (cfg : ScanConfig) (env : RegistryEnv) (entries : List DepEntry) :
    List DepInfo :=
  sortResults (entries.map (processPackage cfg env))

/-- The per-worker status strings `processPackage` publishes through
`updateWorkerStatus` for one entry, in order (lines 322, 354, 387, 393,
270, 593, 608).  `updateWorkerStatus` drops every update unless
`showProgress` is set (line 184); `verbose` gates the final OK/FAIL
status.  These strings are the observational output of §5 of the spec;
no field of the produced `DepInfo` reads them. -/
def workerStatusUpdates (cfg : RunConfig) (env : RegistryEnv) (entry : DepEntry) :
    List String :=
  if !cfg.showProgress then []
  else
    ("meta " ++ entry.name) ::
    (match env.registry entry.name with
     | none => if cfg.verbose then ["FAIL: " ++ entry.name] else []
     | some meta =>
       let versions := processedVersions cfg.scanConfig env.lib meta
       let currentClean := stripRange entry.current
       let st1 := scanPhase1 cfg.scanConfig env.lib versions currentClean
         (env.peers entry.name)
       let phase1 := st1.probed.map (fun v => "scan " ++ entry.name ++ "@" ++ v)
       let scans :=
         if extendCond cfg.scanConfig versions st1 then
           phase1
             ++ ["extending search for " ++ entry.name ++ " to find current version"]
             ++ (probeUntil currentClean (versions.drop st1.probed.length)).map
                  (fun v => "scan " ++ entry.name ++ "@" ++ v ++ " (extended)")
         else phase1
       let st := scan cfg.scanConfig env.lib versions currentClean (env.peers entry.name)
       let heurStatus :=
         if st.hasAngularPeerDep then []
         else if angularCompatiblePackages.any (fun p => strStartsWith entry.name p) then []
         else ["checking Angular compat " ++ entry.name]
       let okStatus :=
         if cfg.verbose then
           ["OK: " ++ entry.name ++ " -> " ++ ((compatBounds st).1.getD "none")]
         else []
       scans ++ heurStatus ++ okStatus)

/-- Concrete instantiation of the external semver library for plain
release versions: parse-based validity, no prereleases, descending
insertion sort, and range satisfaction by literal equality of the probe
version with the declared range (ranges in the tests are written as the
exact satisfied version). -/
def testLib : SemverLib :=
  { valid := fun v => (parseSemver v).isSome
    hasPre := fun _ => false
    sortDesc := fun l => List.insertionSort (fun a b => svGeB a b = true) l
    satisfies := fun v r _ => v == r
    parse := parseSemver }

/-- An all-empty scanner state, the state at the head of the scan. -/
def st0 : ScanState :=
  { peerAngular := none
    compatVersions := []
    hasAngularPeerDep := false
    currentVersionFound := false
    probed := [] }

-- C2 scenario fixtures: fast limit 2, versions 3.0.0(formal,incompatible),
-- 2.0.0(formal,compatible), 1.0.0(formal,compatible), current 1.0.0.
def cfgC2 : ScanConfig :=
  { angularMajor := 19, includePrerelease := false, exhaustive := false,
    fastLimit := 2 }

def peersC2 : String → PeerResult := fun v =>
  if v == "3.0.0" then PeerResult.peer "17.0.0" else PeerResult.peer "19.0.0"

-- C3 scenario: newest version has no peer requirement, fast limit 1,
-- exhaustive = false: exactly one probe.
def cfgC3 : ScanConfig :=
  { angularMajor := 19, includePrerelease := false, exhaustive := false,
    fastLimit := 1 }

-- C6 scenario: no formal peer requirement anywhere, current (2.0.0) is
-- ahead of latest (1.0.0), heuristic default-compatible.
def cfgC6 : ScanConfig :=
  { angularMajor := 19, includePrerelease := false, exhaustive := false,
    fastLimit := 0 }

def metaC6 : PkgMeta :=
  { version := "1.0.0", versions := ["2.0.0", "1.0.0"],
    homepage := "", repositoryUrl := "" }

def envC6 : RegistryEnv :=
  { lib := testLib
    registry := fun n => if n == "left-pad" then some metaC6 else none
    peers := fun _ _ => PeerResult.noPeer
    pkgInfo := fun _ => some ([], "")
    migrationLinks := fun _ => none }

def entryC6 : DepEntry := { name := "left-pad", current := "2.0.0", isDev := false }

-- C10 scenario: version 2.0.0's peer query fails, 1.0.0 declares a
-- formal compatible peer requirement; 2.0.0 becomes latestCompat.
def cfgC10 : ScanConfig :=
  { angularMajor := 19, includePrerelease := false, exhaustive := true,
    fastLimit := 0 }

def peersC10 : String → PeerResult := fun v =>
  if v == "2.0.0" then PeerResult.failed else PeerResult.peer "19.0.0"

-- C5 scenario: current 4.0.0 not compatible, earliest 6.0.0, latest 6.2.0.
def stW : ScanState :=
  { peerAngular := some "6.0.0"
    compatVersions := ["6.2.0", "6.1.0", "6.0.0"]
    hasAngularPeerDep := true
    currentVersionFound := false
    probed := ["6.2.0", "6.1.0", "6.0.0"] }

/-- Per-package processing under a full configuration: the display
toggles carry no information into the classification. -/
def processPackageFull (cfg : RunConfig) (env : RegistryEnv) (entry : DepEntry) : DepInfo :=
  processPackage cfg.scanConfig env entry

/-- A whole run under a full configuration. -/
def runFull (cfg : RunConfig) (env : RegistryEnv) (entries : List DepEntry) :
    List DepInfo :=
  runResults cfg.scanConfig env entries

-- Fixtures for the aggregation and noninterference claims.
def entA : DepEntry := { name := "alpha", current := "1.0.0", isDev := false }

def entF : DepEntry := { name := "ghost", current := "1.0.0", isDev := false }

def metaA : PkgMeta :=
  { version := "1.0.0", versions := ["1.0.0"], homepage := "", repositoryUrl := "" }

def envW : RegistryEnv :=
  { lib := testLib
    registry := fun n => if n == "alpha" then some metaA else none
    peers := fun _ _ => PeerResult.noPeer
    pkgInfo := fun _ => some ([], "")
    migrationLinks := fun _ => none }

def rcA : RunConfig :=
  { angularMajor := 19, includePrerelease := false, exhaustive := false,
    fastLimit := 0, showProgress := true, verbose := true }

def rcB : RunConfig :=
  { angularMajor := 19, includePrerelease := false, exhaustive := false,
    fastLimit := 0, showProgress := false, verbose := false }

/-- Each fast-window iteration probes exactly its version. -/
theorem scanStep_probed (cfg : ScanConfig) (lib : SemverLib) (current : String)
    (peers : String → PeerResult) (st : ScanState) (v : String) :
    (scanStep cfg lib current peers st v).probed = st.probed ++ [v] := by
  simp only [scanStep]
  cases peerOf (peers v) <;> dsimp only <;> split <;> split <;> rfl

/-- A version without a peer range leaves `hasAngularPeerDep` unchanged. -/
theorem scanStep_hasPeer_none (cfg : ScanConfig) (lib : SemverLib) (current : String)
    (peers : String → PeerResult) (st : ScanState) (v : String)
    (h : peerOf (peers v) = none) :
    (scanStep cfg lib current peers st v).hasAngularPeerDep = st.hasAngularPeerDep := by
  simp only [scanStep, h]
  split <;> split <;> rfl

/-- A version without a peer range is always pushed onto the compatible
list by the fast-window loop. -/
theorem scanStep_compat_none (cfg : ScanConfig) (lib : SemverLib) (current : String)
    (peers : String → PeerResult) (st : ScanState) (v : String)
    (h : peerOf (peers v) = none) :
    (scanStep cfg lib current peers st v).compatVersions = st.compatVersions ++ [v] := by
  simp only [scanStep, h, classifyCompatible]
  split <;> rfl

/-- Each extension iteration probes exactly its version. -/
theorem scanStep2_probed (cfg : ScanConfig) (lib : SemverLib)
    (peers : String → PeerResult) (st : ScanState) (v : String) :
    (scanStep2 cfg lib peers st v).probed = st.probed ++ [v] := by
  simp only [scanStep2]
  cases peerOf (peers v) <;> dsimp only <;> split <;> rfl

/-- A version without a peer range is always pushed onto the compatible
list by the extension loop. -/
theorem scanStep2_compat_none (cfg : ScanConfig) (lib : SemverLib)
    (peers : String → PeerResult) (st : ScanState) (v : String)
    (h : peerOf (peers v) = none) :
    (scanStep2 cfg lib peers st v).compatVersions = st.compatVersions ++ [v] := by
  simp only [scanStep2, h, classifyCompatible]
  rfl

/-- The extension loop probes exactly the remaining versions up to and
including the first occurrence of the current version. -/
theorem scanLoop2_probed (cfg : ScanConfig) (lib : SemverLib) (current : String)
    (peers : String → PeerResult) (l : List String) (st : ScanState) :
    (scanLoop2 cfg lib current peers st l).probed = st.probed ++ probeUntil current l := by
  induction l generalizing st with
  | nil => simp [scanLoop2, probeUntil]
  | cons v rest ih =>
    simp only [scanLoop2, probeUntil]
    by_cases hv : (v == current) = true
    · simp [hv, scanStep2_probed]
    · simp only [Bool.not_eq_true] at hv
      simp [hv, ih, scanStep2_probed]

/-- In exhaustive mode the fast-window loop never exits early, so it
probes its whole candidate list. -/
theorem scanLoop1_exhaustive_probed (cfg : ScanConfig) (lib : SemverLib)
    (current : String) (peers : String → PeerResult)
    (hex : cfg.exhaustive = true) (l : List String) (st : ScanState) :
    (scanLoop1 cfg lib current peers st l).probed = st.probed ++ l := by
  induction l generalizing st with
  | nil => simp [scanLoop1]
  | cons v rest ih =>
    simp only [scanLoop1, hex]
    simp [ih, scanStep_probed]

/-- If no probed version of the package ever has a peer range, the
fast-window loop never sets `hasAngularPeerDep`. -/
theorem scanLoop1_hasPeer_none (cfg : ScanConfig) (lib : SemverLib)
    (current : String) (peers : String → PeerResult)
    (hp : ∀ v, peerOf (peers v) = none) (l : List String) (st : ScanState)
    (hst : st.hasAngularPeerDep = false) :
    (scanLoop1 cfg lib current peers st l).hasAngularPeerDep = false := by
  induction l generalizing st with
  | nil => simpa [scanLoop1] using hst
  | cons v rest ih =>
    have hstep : (scanStep cfg lib current peers st v).hasAngularPeerDep = false :=
      (scanStep_hasPeer_none cfg lib current peers st v (hp v)).trans hst
    simp only [scanLoop1]
    split
    · exact hstep
    · exact ih _ hstep

/-- If no probed version of the package ever has a peer range, the whole
scan reports no formal Angular peer dependency. -/
theorem scan_hasPeer_none (cfg : ScanConfig) (lib : SemverLib)
    (versions : List String) (current : String) (peers : String → PeerResult)
    (hp : ∀ v, peerOf (peers v) = none) :
    (scan cfg lib versions current peers).hasAngularPeerDep = false := by
  have h1 : (scanPhase1 cfg lib versions current peers).hasAngularPeerDep = false :=
    scanLoop1_hasPeer_none cfg lib current peers hp _ _ rfl
  simp [scan, extendCond, h1]

/-- Claim C2: if the fast-limited scan finishes without the current
version having been found (it was neither inside the fast window nor
probed) and a probed version declared a formal Angular peer requirement,
the scanner resumes from where the limited scan stopped and probes the
remaining versions until the current version is found or the list is
exhausted. -/
theorem C2_extension_past_fast_limit (cfg : ScanConfig) (lib : SemverLib)
    (versions : List String) (current : String) (peers : String → PeerResult)
    (h1 : (scanPhase1 cfg lib versions current peers).hasAngularPeerDep = true)
    (h2 : (scanPhase1 cfg lib versions current peers).currentVersionFound = false)
    (h3 : 0 < cfg.fastLimit)
    (h4 : (scanPhase1 cfg lib versions current peers).probed.length < versions.length) :
    (scan cfg lib versions current peers).probed =
      (scanPhase1 cfg lib versions current peers).probed
        ++ probeUntil current
            (versions.drop (scanPhase1 cfg lib versions current peers).probed.length) := by
  have hcond : extendCond cfg versions (scanPhase1 cfg lib versions current peers) = true := by
    simp [extendCond, h1, h2, h3, h4]
  simp only [scan, hcond, if_true]
  exact scanLoop2_probed cfg lib current peers _ _

/-- Claim C2 witness: fast limit 2, versions
`[3.0.0(formal,incompatible), 2.0.0(formal,compatible),
1.0.0(formal,compatible)]`, current `1.0.0` — the scan probes past the
limit of 2 until it reaches `1.0.0`. -/
theorem C2_extension_past_fast_limit_witness :
    (scanPhase1 cfgC2 testLib ["3.0.0", "2.0.0", "1.0.0"] "1.0.0" peersC2).hasAngularPeerDep = true ∧
    (scanPhase1 cfgC2 testLib ["3.0.0", "2.0.0", "1.0.0"] "1.0.0" peersC2).currentVersionFound = false ∧
    0 < cfgC2.fastLimit ∧
    (scanPhase1 cfgC2 testLib ["3.0.0", "2.0.0", "1.0.0"] "1.0.0" peersC2).probed.length < 3 ∧
    (scan cfgC2 testLib ["3.0.0", "2.0.0", "1.0.0"] "1.0.0" peersC2).probed
      = ["3.0.0", "2.0.0", "1.0.0"] :=
  ⟨by decide, by decide, by decide, by decide,
   (C2_extension_past_fast_limit cfgC2 testLib ["3.0.0", "2.0.0", "1.0.0"] "1.0.0" peersC2
      (by decide) (by decide) (by decide) (by decide)).trans (by decide)⟩

/-- Claim C3: in non-exhaustive mode, when the newest probed version has
no formal Angular peer requirement (declared none, or its probe failed),
the scan stops after that single probe — no formal requirement has been
observed and a compatible version exists, so the early exit fires, and
the extension phase (which demands a formal requirement) never runs.
In particular a fast scan with limit 1 probes exactly one version. -/
theorem C3_early_exit_single_probe (cfg : ScanConfig) (lib : SemverLib)
    (current : String) (peers : String → PeerResult) (v0 : String) (rest : List String)
    (hex : cfg.exhaustive = false) (hp : peerOf (peers v0) = none) :
    (scan cfg lib (v0 :: rest) current peers).probed = [v0] := by
  obtain ⟨tl, htl⟩ : ∃ tl, versionsToCheck cfg (v0 :: rest) = v0 :: tl := by
    cases hf : cfg.fastLimit with
    | zero => exact ⟨rest, by simp [versionsToCheck, hf]⟩
    | succ k => exact ⟨rest.take k, by simp [versionsToCheck, hf]⟩
  have hstep := scanStep_hasPeer_none cfg lib current peers
    (initState cfg (v0 :: rest) current) v0 hp
  have hcompat := scanStep_compat_none cfg lib current peers
    (initState cfg (v0 :: rest) current) v0 hp
  have hprobed := scanStep_probed cfg lib current peers
    (initState cfg (v0 :: rest) current) v0
  have hinitPeer : (initState cfg (v0 :: rest) current).hasAngularPeerDep = false := rfl
  have hinitCompat : (initState cfg (v0 :: rest) current).compatVersions = [] := rfl
  have hinitProbed : (initState cfg (v0 :: rest) current).probed = [] := rfl
  have hloop : scanLoop1 cfg lib current peers (initState cfg (v0 :: rest) current) (v0 :: tl)
      = scanStep cfg lib current peers (initState cfg (v0 :: rest) current) v0 := by
    simp only [scanLoop1]
    have hc : (!cfg.exhaustive
        && !(scanStep cfg lib current peers (initState cfg (v0 :: rest) current) v0).hasAngularPeerDep
        && decide (0 < (scanStep cfg lib current peers
              (initState cfg (v0 :: rest) current) v0).compatVersions.length)) = true := by
      rw [hstep, hinitPeer, hcompat, hinitCompat, hex]
      rfl
    simp [hc]
  have hphase : scanPhase1 cfg lib (v0 :: rest) current peers
      = scanStep cfg lib current peers (initState cfg (v0 :: rest) current) v0 := by
    rw [scanPhase1, htl]
    exact hloop
  have hpeerF : (scanPhase1 cfg lib (v0 :: rest) current peers).hasAngularPeerDep = false := by
    rw [hphase, hstep, hinitPeer]
  have hcond : extendCond cfg (v0 :: rest) (scanPhase1 cfg lib (v0 :: rest) current peers) = false := by
    simp [extendCond, hpeerF]
  simp only [scan, hcond, Bool.false_eq_true, if_false]
  rw [hphase, hprobed, hinitProbed]
  rfl

/-- Claim C3 witness: fast limit 1, `exhaustive = false`, the newest
version declares no Angular peer requirement — exactly one probe. -/
theorem C3_early_exit_single_probe_witness :
    cfgC3.exhaustive = false ∧
    peerOf ((fun _ => PeerResult.noPeer) "3.0.0") = none ∧
    (scan cfgC3 testLib ["3.0.0", "2.0.0", "1.0.0"] "1.0.0"
        (fun _ => PeerResult.noPeer)).probed = ["3.0.0"] :=
  ⟨rfl, rfl,
   C3_early_exit_single_probe cfgC3 testLib "1.0.0" (fun _ => PeerResult.noPeer)
     "3.0.0" ["2.0.0", "1.0.0"] rfl rfl⟩

/-- Claim C4: for a probed version declaring a formal Angular peer range,
both scan loops classify it compatible exactly when the version string
`<angularMajor>.0.0` satisfies the declared range under the semver
library's range satisfaction, with the `includePrerelease` flag passed
through to the satisfaction check. -/
theorem C4_formal_satisfaction (cfg : ScanConfig) (lib : SemverLib) (current : String)
    (peers : String → PeerResult) (st : ScanState) (v r : String)
    (h : peers v = PeerResult.peer r) :
    (scanStep cfg lib current peers st v).compatVersions
      = st.compatVersions
        ++ (if lib.satisfies (toString cfg.angularMajor ++ ".0.0") r cfg.includePrerelease
            then [v] else []) ∧
    (scanStep2 cfg lib peers st v).compatVersions
      = st.compatVersions
        ++ (if lib.satisfies (toString cfg.angularMajor ++ ".0.0") r cfg.includePrerelease
            then [v] else []) := by
  have hpr : peerOf (peers v) = some r := by rw [h]; rfl
  constructor
  · simp only [scanStep, hpr, classifyCompatible, satisfiesAngular]
    split <;> split <;> simp_all
  · simp only [scanStep2, hpr, classifyCompatible, satisfiesAngular]
    split <;> simp_all

/-- Claim C4 witness: target major 19, declared range satisfied by
`19.0.0` exactly — the probed version is appended to the compatible
list, and would not be under an unsatisfied range. -/
theorem C4_formal_satisfaction_witness :
    peersC2 "2.0.0" = PeerResult.peer "19.0.0" ∧
    (scanStep cfgC2 testLib "1.0.0" peersC2 st0 "2.0.0").compatVersions = ["2.0.0"] ∧
    testLib.satisfies (toString cfgC2.angularMajor ++ ".0.0") "19.0.0"
      cfgC2.includePrerelease = true :=
  ⟨by decide,
   ((C4_formal_satisfaction cfgC2 testLib "1.0.0" peersC2 st0 "2.0.0" "19.0.0"
      (by decide)).1).trans (by decide),
   by decide⟩

/-- Claim C10: a probed version whose peer query failed, or which
declares no Angular peer range, is unconditionally appended to the
compatible list by both scan loops — independent of whether other
versions declared a formal requirement — and can therefore end up as a
compatibility bound. -/
theorem C10_no_peer_counts_compatible (cfg : ScanConfig) (lib : SemverLib)
    (current : String) (peers : String → PeerResult) (st : ScanState) (v : String)
    (h : peerOf (peers v) = none) :
    (scanStep cfg lib current peers st v).compatVersions = st.compatVersions ++ [v] ∧
    (scanStep2 cfg lib peers st v).compatVersions = st.compatVersions ++ [v] :=
  ⟨scanStep_compat_none cfg lib current peers st v h,
   scanStep2_compat_none cfg lib peers st v h⟩

/-- Claim C10 witness: version `2.0.0` has a failed peer query while
`1.0.0` declares a formal compatible requirement; `2.0.0` is pushed onto
the compatible list and the full scan makes it `latestCompat`. -/
theorem C10_no_peer_counts_compatible_witness :
    peerOf (peersC10 "2.0.0") = none ∧
    (scanStep cfgC10 testLib "1.0.0" peersC10 st0 "2.0.0").compatVersions = ["2.0.0"] ∧
    (scan cfgC10 testLib ["2.0.0", "1.0.0"] "1.0.0" peersC10).hasAngularPeerDep = true ∧
    compatBounds (scan cfgC10 testLib ["2.0.0", "1.0.0"] "1.0.0" peersC10)
      = (some "2.0.0", some "1.0.0") :=
  ⟨by decide,
   ((C10_no_peer_counts_compatible cfgC10 testLib "1.0.0" peersC10 st0 "2.0.0"
      (by decide)).1).trans (by decide),
   by decide, by decide⟩

/-- Claim C5: for a package with a formal peer requirement and a
non-empty compatible set (so both bounds exist): if the current version
is in the compatible set the recommendation is Keep exactly when it
equals `latestCompat` and otherwise an optional upgrade to `latestCompat`;
if the current version is not in the compatible set the recommendation is
a must-upgrade to `earliestCompat`. -/
theorem C5_formal_recommendation (m : Nat) (currentClean latest : String)
    (st : ScanState) (lc ec : String)
    (hlc : (compatBounds st).1 = some lc)
    (hec : (compatBounds st).2 = some ec) :
    (st.compatVersions.contains currentClean = true →
      (formalNoteRec m currentClean latest st.compatVersions
          (compatBounds st).1 (compatBounds st).2).2
        = if currentClean == lc then "#3 Keep current version"
          else "#2 Optionally upgrade to " ++ lc) ∧
    (st.compatVersions.contains currentClean = false →
      (formalNoteRec m currentClean latest st.compatVersions
          (compatBounds st).1 (compatBounds st).2).2
        = "#1 Must upgrade to " ++ ec) := by
  rw [hlc, hec]
  constructor
  · intro h
    have hmem : currentClean ∈ st.compatVersions := by simpa using h
    simp [formalNoteRec, hmem]
  · intro h
    have hmem : currentClean ∉ st.compatVersions := by simpa using h
    simp [formalNoteRec, hmem]

/-- Claim C5 witness: the spec scenario — current `4.0.0` not in the
compatible set, `latestCompat = 6.2.0`, `earliestCompat = 6.0.0` —
yields the must-upgrade recommendation naming `6.0.0`. -/
theorem C5_formal_recommendation_witness :
    (compatBounds stW).1 = some "6.2.0" ∧
    (compatBounds stW).2 = some "6.0.0" ∧
    stW.compatVersions.contains "4.0.0" = false ∧
    (formalNoteRec 6 "4.0.0" "7.0.0" stW.compatVersions (compatBounds stW).1
      (compatBounds stW).2).2 = "#1 Must upgrade to 6.0.0" :=
  ⟨by decide, by decide, by decide,
   ((C5_formal_recommendation 6 "4.0.0" "7.0.0" stW "6.2.0" "6.0.0"
      (by decide) (by decide)).2 (by decide)).trans (by decide)⟩

/-- Claim C6 counterexample: package `left-pad` has no Angular peer
requirement anywhere, its current version `2.0.0` is ahead of its latest
`1.0.0` (the distance descriptor even says so), yet the engine still
produces the upgrade recommendation `#2 Optionally upgrade to 1.0.0`
instead of a note only. -/
theorem C6_counterexample_ahead_still_upgrades :
    (processPackage cfgC6 envC6 entryC6).peerAngular = "Does not depend on Angular" ∧
    (processPackage cfgC6 envC6 entryC6).versionsBehindLatestCompat = "Ahead of latest" ∧
    triGt (2, 0, 0) (1, 0, 0) = true ∧
    (processPackage cfgC6 envC6 entryC6).recommendedVersion
      = "#2 Optionally upgrade to 1.0.0" := by
  refine ⟨by decide, by decide, by decide, by decide⟩

/-- Claim C6 as amended: for a package with no formal peer requirement
anywhere, when the heuristic classifier deems it compatible the
recommendation compares current against latest by equality only — Keep
when equal and an optional upgrade naming `latest` whenever they differ,
including when current is ahead of latest (the "ahead" state appears
only in the distance descriptor); when the heuristic deems it
incompatible, a must-upgrade naming `latest` when they differ, else
`n/a`. -/
theorem C6_amended_recommendation (cfg : ScanConfig) (env : RegistryEnv)
    (entry : DepEntry) (meta : PkgMeta) (heur : Bool × String)
    (hmeta : env.registry entry.name = some meta)
    (hp : ∀ v, peerOf (env.peers entry.name v) = none)
    (hheur : checkAngularCompatibility env entry.name meta.version
        (processedVersions cfg env.lib meta) = heur) :
    (processPackage cfg env entry).peerAngular = "Does not depend on Angular" ∧
    (processPackage cfg env entry).recommendedVersion
      = if heur.1 then
          (if stripRange entry.current == meta.version then "#3 Keep current version"
           else "#2 Optionally upgrade to " ++ meta.version)
        else
          (if meta.version != "" && stripRange entry.current != meta.version
           then "#1 Must upgrade to " ++ meta.version
           else "n/a") := by
  have hpd : (scan cfg env.lib (processedVersions cfg env.lib meta)
      (stripRange entry.current) (env.peers entry.name)).hasAngularPeerDep = false :=
    scan_hasPeer_none cfg env.lib _ _ _ hp
  simp only [processPackage, hmeta, processMeta, hpd, Bool.false_eq_true, if_false,
    hheur, heuristicNoteRec]
  refine ⟨trivial, ?_⟩
  split <;> rfl

/-- Claim C6 amended witness: the heuristic default-compatible package
with current `2.0.0` and latest `1.0.0` gets the optional upgrade. -/
theorem C6_amended_recommendation_witness :
    envC6.registry entryC6.name = some metaC6 ∧
    peerOf (envC6.peers entryC6.name "2.0.0") = none ∧
    checkAngularCompatibility envC6 entryC6.name metaC6.version
        (processedVersions cfgC6 envC6.lib metaC6)
      = (true, "No explicit framework dependencies detected") ∧
    (processPackage cfgC6 envC6 entryC6).recommendedVersion
      = "#2 Optionally upgrade to 1.0.0" :=
  ⟨by decide, rfl, by decide,
   ((C6_amended_recommendation cfgC6 envC6 entryC6 metaC6
      (true, "No explicit framework dependencies detected")
      (by decide) (fun _ => rfl) (by decide)).2).trans (by decide)⟩

/-- Claim C8: a fast-scan limit of 0 disables fast scanning — the
candidate set is the entire version list, never a truncated prefix; in
exhaustive mode the scanner then probes every version of the list. -/
theorem C8_fast_limit_zero_full_scan (cfg : ScanConfig) (lib : SemverLib)
    (versions : List String) (current : String) (peers : String → PeerResult)
    (h : cfg.fastLimit = 0) :
    versionsToCheck cfg versions = versions ∧
    (cfg.exhaustive = true →
      (scan cfg lib versions current peers).probed = versions) := by
  have hvtc : versionsToCheck cfg versions = versions := by
    simp [versionsToCheck, h]
  refine ⟨hvtc, fun hex => ?_⟩
  have hphase : (scanPhase1 cfg lib versions current peers).probed = versions := by
    rw [scanPhase1, hvtc]
    rw [scanLoop1_exhaustive_probed cfg lib current peers hex]
    rfl
  have hcond : extendCond cfg versions (scanPhase1 cfg lib versions current peers)
      = false := by
    simp [extendCond, h]
  simp only [scan, hcond, Bool.false_eq_true, if_false]
  exact hphase

/-- Claim C8 witness: fast limit 0 with three versions — the candidate
set is the whole list and the exhaustive scan probes all three. -/
theorem C8_fast_limit_zero_full_scan_witness :
    cfgC10.fastLimit = 0 ∧
    versionsToCheck cfgC10 ["3.0.0", "2.0.0", "1.0.0"] = ["3.0.0", "2.0.0", "1.0.0"] ∧
    (scan cfgC10 testLib ["3.0.0", "2.0.0", "1.0.0"] "1.0.0" peersC10).probed
      = ["3.0.0", "2.0.0", "1.0.0"] :=
  ⟨rfl,
   (C8_fast_limit_zero_full_scan cfgC10 testLib ["3.0.0", "2.0.0", "1.0.0"] "1.0.0"
      peersC10 rfl).1,
   (C8_fast_limit_zero_full_scan cfgC10 testLib ["3.0.0", "2.0.0", "1.0.0"] "1.0.0"
      peersC10 rfl).2 rfl⟩

/-- The produced row always carries the entry's own name, on both the
success and the failure path. -/
theorem processPackage_name (cfg : ScanConfig) (env : RegistryEnv) (e : DepEntry) :
    (processPackage cfg env e).name = e.name := by
  unfold processPackage
  cases henv : env.registry e.name <;> rfl

/-- The aggregated run always yields exactly one row per work-list entry. -/
theorem runResults_length (cfg : ScanConfig) (env : RegistryEnv) (l : List DepEntry) :
    (runResults cfg env l).length = l.length := by
  simp [runResults, sortResults, List.length_insertionSort, List.length_map]

/-- Claim C1: over any processing order of the entry list (the worker
pool interleaves arbitrarily), the run produces exactly one row per
entry — the output length equals the input length, and the output names
are a permutation of the input names (each row matches exactly one entry
by name), including entries whose metadata query fails. -/
theorem C1_one_result_per_entry (cfg : ScanConfig) (env : RegistryEnv)
    (entries order : List DepEntry) (hperm : order.Perm entries) :
    (runResults cfg env order).length = entries.length ∧
    ((runResults cfg env order).map DepInfo.name).Perm (entries.map DepEntry.name) := by
  constructor
  · rw [runResults_length, hperm.length_eq]
  · have hnames : ∀ l : List DepEntry,
        (l.map (processPackage cfg env)).map DepInfo.name = l.map DepEntry.name := by
      intro l
      induction l with
      | nil => rfl
      | cons a t ih => simp [ih, processPackage_name]
    have hsort : (runResults cfg env order).Perm (order.map (processPackage cfg env)) :=
      List.perm_insertionSort _ _
    have h2 := hsort.map DepInfo.name
    rw [hnames order] at h2
    exact h2.trans (hperm.map DepEntry.name)

/-- Claim C1 witness: two entries processed in reversed order, one of
which fails its metadata query — two rows out, names matching. -/
theorem C1_one_result_per_entry_witness :
    ([entF, entA].Perm [entA, entF]) ∧
    (runResults cfgC6 envW [entF, entA]).length = 2 ∧
    ((runResults cfgC6 envW [entF, entA]).map DepInfo.name).Perm
      ([entA, entF].map DepEntry.name) :=
  ⟨by decide,
   ((C1_one_result_per_entry cfgC6 envW [entA, entF] [entF, entA] (by decide)).1).trans
     (by decide),
   (C1_one_result_per_entry cfgC6 envW [entA, entF] [entF, entA] (by decide)).2⟩

/-- Claim C7: when the metadata query for a package fails, its row is
still appended, carrying the `Unknown`/`n/a` sentinels and the failure
note, with the entry's own name and dev flag; and the run over a queue
containing the failing entry still yields one row per entry, so the
failure affects neither the pool nor the other packages' rows. -/
theorem C7_failure_sentinel_record (cfg : ScanConfig) (env : RegistryEnv)
    (entry : DepEntry) (pre post : List DepEntry)
    (h : env.registry entry.name = none) :
    (processPackage cfg env entry).note = "Failed to fetch metadata" ∧
    (processPackage cfg env entry).peerAngular = "Unknown" ∧
    (processPackage cfg env entry).versionsBehindLatestCompat = "Unknown" ∧
    (processPackage cfg env entry).recommendedVersion = "n/a" ∧
    (processPackage cfg env entry).earliestCompat = "n/a" ∧
    (processPackage cfg env entry).latestCompat = "n/a" ∧
    (processPackage cfg env entry).name = entry.name ∧
    (processPackage cfg env entry).isDev = entry.isDev ∧
    (runResults cfg env (pre ++ entry :: post)).length
      = pre.length + post.length + 1 := by
  have hrec : processPackage cfg env entry = failRecord env entry := by
    simp [processPackage, h]
  rw [hrec]
  refine ⟨rfl, rfl, rfl, rfl, rfl, rfl, rfl, rfl, ?_⟩
  rw [runResults_length]
  simp only [List.length_append, List.length_cons]
  omega

/-- Claim C7 witness: the entry `ghost` has no registry metadata; its
row carries the sentinels and the run over `[alpha, ghost]` still has
two rows. -/
theorem C7_failure_sentinel_record_witness :
    envW.registry entF.name = none ∧
    (processPackage cfgC6 envW entF).note = "Failed to fetch metadata" ∧
    (processPackage cfgC6 envW entF).peerAngular = "Unknown" ∧
    (processPackage cfgC6 envW entF).recommendedVersion = "n/a" ∧
    (processPackage cfgC6 envW entF).earliestCompat = "n/a" ∧
    (processPackage cfgC6 envW entF).latestCompat = "n/a" ∧
    (runResults cfgC6 envW [entA, entF]).length = 2 :=
  ⟨by decide,
   (C7_failure_sentinel_record cfgC6 envW entF [entA] [] (by decide)).1,
   (C7_failure_sentinel_record cfgC6 envW entF [entA] [] (by decide)).2.1,
   (C7_failure_sentinel_record cfgC6 envW entF [entA] [] (by decide)).2.2.2.1,
   (C7_failure_sentinel_record cfgC6 envW entF [entA] [] (by decide)).2.2.2.2.1,
   (C7_failure_sentinel_record cfgC6 envW entF [entA] [] (by decide)).2.2.2.2.2.1,
   ((C7_failure_sentinel_record cfgC6 envW entF [entA] [] (by decide)).2.2.2.2.2.2.2.2).trans
     (by decide)⟩

/-- Claim C9: two runs whose configurations agree on every
classification field and differ only in the display toggles
(`showProgress`, `verbose`) produce identical rows for every package
and an identical final collection; only the published status strings
may differ. -/
theorem C9_display_toggles_noninterference (c1 c2 : RunConfig) (env : RegistryEnv)
    (entries : List DepEntry)
    (h1 : c1.angularMajor = c2.angularMajor)
    (h2 : c1.includePrerelease = c2.includePrerelease)
    (h3 : c1.exhaustive = c2.exhaustive)
    (h4 : c1.fastLimit = c2.fastLimit) :
    (∀ e : DepEntry, processPackageFull c1 env e = processPackageFull c2 env e) ∧
    runFull c1 env entries = runFull c2 env entries := by
  have hsc : c1.scanConfig = c2.scanConfig := by
    simp [RunConfig.scanConfig, h1, h2, h3, h4]
  exact ⟨fun e => by simp [processPackageFull, hsc], by simp [runFull, hsc]⟩

/-- Claim C9 witness: two configurations differing exactly in the
display toggles publish different status strings yet produce identical
rows and an identical run result. -/
theorem C9_display_toggles_noninterference_witness :
    rcA.showProgress ≠ rcB.showProgress ∧
    rcA.verbose ≠ rcB.verbose ∧
    workerStatusUpdates rcA envW entF ≠ workerStatusUpdates rcB envW entF ∧
    processPackageFull rcA envW entF = processPackageFull rcB envW entF ∧
    runFull rcA envW [entA, entF] = runFull rcB envW [entA, entF] :=
  ⟨by decide, by decide, by decide,
   (C9_display_toggles_noninterference rcA rcB envW [entA, entF] rfl rfl rfl rfl).1 entF,
   (C9_display_toggles_noninterference rcA rcB envW [entA, entF] rfl rfl rfl rfl).2⟩
